import Mathlib

/-!
# Verification of the fiber HTTP client agent (src/client.go)

A shallow embedding of the pooled `Agent` builder/executor from
`client.go`: the data model (`Agent`, `Request`, `FormFile`, pooled
zero forms), the fallible resolution step `Parse`, the builder
setters, multipart body assembly (`MultipartForm`, `SendFile`,
`SendFiles` with Go's `path/filepath` `Clean`/`Base`), and the
execution core (`Bytes`/`String`/`Struct`) over an abstract transport
oracle standing for the bound `fasthttp.HostClient`.

Machine integers (`time.Duration`, `int`) are embedded as `Int`;
byte strings as `List Nat`; the transport and the JSON codec, which
are external collaborators, are oracle parameters.  Execution results
carry the ordered trace of transport invocations so that send-count
properties can be stated.
-/

set_option autoImplicit false

namespace FiberClient

/-- Errors accumulated in an Agent's deferred error list.  Each
constructor corresponds to one error source in `client.go`. -/
inductive Err where
  /-- `fasthttp.ErrorInvalidURI`, returned by `Parse` on a nil URI. -/
  | invalidURI
  /-- fmt.Errorf "unsupported protocol %q. http and https are supported". -/
  | unsupportedProtocol (scheme : String)
  /-- error returned by `multipart.Writer.SetBoundary` on an invalid boundary. -/
  | invalidBoundary
  /-- error from `ioutil.ReadFile` in `SendFile`. -/
  | readFile (filename : String)
  /-- error returned by a transport send (`Do`/`DoTimeout`/`DoRedirects`). -/
  | transport (msg : String)
  /-- error returned by `json.Marshal` / `xml.Marshal`. -/
  | marshal (msg : String)
  /-- error returned by `json.Unmarshal` in `Struct`. -/
  | unmarshal (msg : String)
  deriving DecidableEq, Repr

/-- The URI of a request (`fasthttp.URI`), restricted to the fields
the client touches: scheme and host (read by `Parse`), username and
password (`BasicAuth`), query string (`QueryString`). -/
structure URI where
  scheme : String
  host : String
  username : String
  password : String
  queryString : String
  deriving DecidableEq, Repr

/-- The URI `fasthttp.Request.URI()` materialises when none was set:
empty host, http scheme. -/
def URI.zero : URI :=
  { scheme := "http", host := "", username := "", password := "", queryString := "" }

/-- One part of a multipart/form-data document, as written by
`mime/multipart.Writer`: either a plain field (`WriteField`) or a file
part (`CreateFormFile` followed by `Write`). -/
inductive Part where
  | field (key value : String)
  | file (fieldname filename : String) (content : List Nat)
  deriving DecidableEq, Repr

/-- A chunk of a request body: either raw bytes (`SetBody`,
`SetBodyString`) or a multipart document streamed into the body writer
by `MultipartForm` (boundary plus parts, in written order). -/
inductive BodyChunk where
  | raw (bytes : List Nat)
  | multipart (boundary : String) (parts : List Part)
  deriving DecidableEq, Repr

/-- An outgoing request (`fasthttp.Request`), restricted to the state
the client manipulates: method, URI, headers and body. -/
structure Request where
  method : String
  uri : Option URI
  headers : List (String × String)
  cookies : List (String × String)
  body : List BodyChunk
  deriving DecidableEq, Repr

/-- The zero request, as produced by `fasthttp.AcquireRequest` /
`Request.Reset`.  fasthttp's zero method is GET. -/
def Request.zero : Request :=
  { method := "GET", uri := none, headers := [], cookies := [], body := [] }

/-- `RequestHeader.SetCookie`: set cookie `k` to `v`, replacing any
existing cookie with that key. -/
def Request.setCookie (req : Request) (k v : String) : Request :=
  { req with cookies := req.cookies.filter (fun p => p.1 ≠ k) ++ [(k, v)] }

/-- `RequestHeader.Set`: replace every header with key `k` by the
single pair `(k, v)`. -/
def Request.setHeader (req : Request) (k v : String) : Request :=
  { req with headers := req.headers.filter (fun p => p.1 ≠ k) ++ [(k, v)] }

/-- `RequestHeader.Add`: append one more `(k, v)` pair. -/
def Request.addHeader (req : Request) (k v : String) : Request :=
  { req with headers := req.headers ++ [(k, v)] }

/-- `RequestHeader.SetMultipartFormBoundary`: declare the boundary in
the Content-Type header. -/
def Request.setMultipartFormBoundary (req : Request) (b : String) : Request :=
  req.setHeader "Content-Type" ("multipart/form-data; boundary=" ++ b)

/-- All values carried by headers with the given key, in order. -/
def Request.headerValues (req : Request) (k : String) : List String :=
  (req.headers.filter (fun p => p.1 = k)).map (fun p => p.2)

/-- TLS configuration (`crypto/tls.Config`), restricted to the one
field the client writes. -/
structure TLSConf where
  insecureSkipVerify : Bool
  deriving DecidableEq, Repr

/-- The per-destination transport binding built by `Parse`
(`fasthttp.HostClient` configuration fields). -/
structure HostClient where
  addr : String
  name : String
  noDefaultUserAgentHeader : Bool
  isTLS : Bool
  tlsConfig : Option TLSConf
  deriving DecidableEq, Repr

/-- Multipart form file descriptor (`FormFile` in client.go). -/
structure FormFile where
  fieldname : String
  name : String
  content : List Nat
  autoRelease : Bool
  deriving DecidableEq, Repr

/-- The zero form file, as produced by `AcquireFormFile` on an empty
pool and re-established by `ReleaseFormFile`. -/
def FormFile.zero : FormFile :=
  { fieldname := "", name := "", content := [], autoRelease := false }

/-- `ReleaseFormFile`: scrub every mutable field before the descriptor
returns to its pool (`Content = Content[:0]` truncates to empty). -/
def releaseFormFileReset (ff : FormFile) : FormFile :=
  { ff with fieldname := "", name := "", content := ff.content.take 0, autoRelease := false }

/-- Query arguments (`fasthttp.Args`): insertion-ordered,
duplicate-permitted key/value pairs; `VisitAll` visits in this order. -/
abbrev Args := List (String × String)

/-- The `Agent` struct of client.go.  `hostClient = none` embeds a nil
`*fasthttp.HostClient`; `debugWriter` is an opaque writer tag. -/
structure Agent where
  hostClient : Option HostClient
  req : Request
  customReq : Option Request
  args : Option Args
  timeout : Int
  errs : List Err
  formFiles : List FormFile
  debugWriter : Option String
  maxRedirectsCount : Int
  boundary : String
  name : String
  noDefaultUserAgentHeader : Bool
  reuse : Bool
  parsed : Bool
  deriving DecidableEq, Repr

/-- The agent `AcquireAgent` allocates when the pool is empty:
all-zero fields around a freshly acquired (zero) request. -/
def freshAgent : Agent :=
  { hostClient := none
    req := Request.zero
    customReq := none
    args := none
    timeout := 0
    errs := []
    formFiles := []
    debugWriter := none
    maxRedirectsCount := 0
    boundary := ""
    name := ""
    noDefaultUserAgentHeader := false
    reuse := false
    parsed := false }

/-- `defaultUserAgent` constant. -/
def defaultUserAgent : String := "fiber"

/-- `strings.Index(addr, ":") >= 0`. -/
def containsColon (addr : String) : Bool :=
  addr.toList.any (fun c => c = ':')

/-- `addMissingPort`: append `:80` / `:443` when the address carries no
explicit port (`net.JoinHostPort` on a host without a colon). -/
def addMissingPort (addr : String) (isTLS : Bool) : String :=
  if containsColon addr then addr
  else addr ++ ":" ++ (if isTLS then "443" else "80")

/-- `Agent.Parse`: memoized URI resolution.  Sets `parsed` first, then
validates the URI of the effective request (custom request wins), then
binds the `HostClient`.  Returns the error (if any) and the mutated
agent. -/
def Agent.parse (a : Agent) : Option Err × Agent :=
  if a.parsed then (none, a)
  else
    let a1 := { a with parsed := true }
    let req := a1.customReq.getD a1.req
    match req.uri with
    | none => (some Err.invalidURI, a1)
    | some uri =>
      let bind : Bool → Option Err × Agent := fun isTLS =>
        let hc : HostClient :=
          { addr := addMissingPort uri.host isTLS
            name := if a1.name = "" ∧ ¬ a1.noDefaultUserAgentHeader then defaultUserAgent else a1.name
            noDefaultUserAgentHeader := a1.noDefaultUserAgentHeader
            isTLS := isTLS
            tlsConfig := none }
        (none, { a1 with hostClient := some hc })
      if uri.scheme = "https" then bind true
      else if uri.scheme ≠ "http" then
        (some (Err.unsupportedProtocol uri.scheme), a1)
      else bind false

/-! ## Builder setters

Each Go setter mutates the agent and returns the same reference; here
each is a function on the agent state.  The two TLS setters
dereference `a.HostClient`; on a nil binding that is a nil-pointer
panic, embedded as `none`. -/

/-- `Agent.Set`: set a request header. -/
def Agent.set (a : Agent) (k v : String) : Agent :=
  { a with req := a.req.setHeader k v }

/-- `Agent.Add`: add a request header. -/
def Agent.add (a : Agent) (k v : String) : Agent :=
  { a with req := a.req.addHeader k v }

/-- `Agent.ConnectionClose`: set the Connection: close header. -/
def Agent.connectionClose (a : Agent) : Agent :=
  { a with req := a.req.setHeader "Connection" "close" }

/-- `Agent.UserAgent`: set the User-Agent header. -/
def Agent.userAgent (a : Agent) (ua : String) : Agent :=
  { a with req := a.req.setHeader "User-Agent" ua }

/-- `Agent.Referer`: set the Referer header. -/
def Agent.referer (a : Agent) (r : String) : Agent :=
  { a with req := a.req.setHeader "Referer" r }

/-- `Agent.ContentType`: set the Content-Type header. -/
def Agent.contentType (a : Agent) (ct : String) : Agent :=
  { a with req := a.req.setHeader "Content-Type" ct }

/-- `Agent.Cookie`: set one cookie. -/
def Agent.cookie (a : Agent) (k v : String) : Agent :=
  { a with req := a.req.setCookie k v }

/-- The `for i := 1; i < len(kv); i += 2` loop of `Agent.Cookies`:
consume interleaved key/value pairs, ignoring a trailing key. -/
def Request.setCookiePairs : Request → List String → Request
  | req, k :: v :: rest => Request.setCookiePairs (req.setCookie k v) rest
  | req, _ => req

/-- `Agent.Cookies`: set multiple cookies from an interleaved list. -/
def Agent.cookies (a : Agent) (kv : List String) : Agent :=
  { a with req := Request.setCookiePairs a.req kv }

/-- `Agent.Host`: set the URI host (`fasthttp.Request.URI()`
materialises a URI when none was set). -/
def Agent.host (a : Agent) (h : String) : Agent :=
  let uri := a.req.uri.getD URI.zero
  { a with req := { a.req with uri := some { uri with host := h } } }

/-- `Agent.QueryString`: set the URI query string. -/
def Agent.queryString (a : Agent) (qs : String) : Agent :=
  let uri := a.req.uri.getD URI.zero
  { a with req := { a.req with uri := some { uri with queryString := qs } } }

/-- `Agent.BasicAuth`: set URI username and password. -/
def Agent.basicAuth (a : Agent) (username password : String) : Agent :=
  let uri := a.req.uri.getD URI.zero
  { a with req := { a.req with uri := some { uri with username := username, password := password } } }

/-- `Agent.BodyString`: replace the request body. -/
def Agent.bodyString (a : Agent) (s : List Nat) : Agent :=
  { a with req := { a.req with body := [BodyChunk.raw s] } }

/-- `Agent.Request`: substitute a caller-owned request. -/
def Agent.requestSet (a : Agent) (req : Request) : Agent :=
  { a with customReq := some req }

/-- `Agent.JSON`: set the JSON content type, then either set the body
or append the marshal error.  The codec is external; its outcome is
the `marshalResult` argument. -/
def Agent.jsonBody (a : Agent) (marshalResult : Except Err (List Nat)) : Agent :=
  let a1 := { a with req := a.req.setHeader "Content-Type" "application/json" }
  match marshalResult with
  | Except.error e => { a1 with errs := a1.errs ++ [e] }
  | Except.ok body => { a1 with req := { a1.req with body := [BodyChunk.raw body] } }

/-- `Agent.XML`: set the XML content type, then either set the body or
append the marshal error; the codec outcome is an oracle argument. -/
def Agent.xmlBody (a : Agent) (marshalResult : Except Err (List Nat)) : Agent :=
  let a1 := { a with req := a.req.setHeader "Content-Type" "application/xml" }
  match marshalResult with
  | Except.error e => { a1 with errs := a1.errs ++ [e] }
  | Except.ok body => { a1 with req := { a1.req with body := [BodyChunk.raw body] } }

/-- `Agent.Form`: set the form content type; a non-nil argument set
becomes the body in query-string encoding (oracle `encoded`). -/
def Agent.form (a : Agent) (args : Option Args) (encoded : List Nat) : Agent :=
  let a1 := { a with req := a.req.setHeader "Content-Type" "application/x-www-form-urlencoded" }
  match args with
  | some _ => { a1 with req := { a1.req with body := [BodyChunk.raw encoded] } }
  | none => a1

/-- `Agent.Boundary`: record the explicit multipart boundary. -/
def Agent.boundarySet (a : Agent) (b : String) : Agent :=
  { a with boundary := b }

/-- `Agent.Debug`: install the debug writer (`os.Stdout` by default). -/
def Agent.debug (a : Agent) (w : List String) : Agent :=
  { a with debugWriter := some (w.headD "stdout") }

/-- `Agent.Timeout`: set the request timeout. -/
def Agent.timeoutSet (a : Agent) (t : Int) : Agent :=
  { a with timeout := t }

/-- `Agent.Reuse`: mark the agent reusable after one request. -/
def Agent.reuseSet (a : Agent) : Agent :=
  { a with reuse := true }

/-- `Agent.MaxRedirectsCount`: set the redirect budget. -/
def Agent.maxRedirectsCountSet (a : Agent) (c : Int) : Agent :=
  { a with maxRedirectsCount := c }

/-- `Agent.InsecureSkipVerify`: reads `a.HostClient.TLSConfig`; on a
nil `HostClient` (Parse not yet succeeded) this dereferences a nil
pointer — embedded as `none` (panic). -/
def Agent.insecureSkipVerify (a : Agent) : Option Agent :=
  match a.hostClient with
  | none => none
  | some hc =>
    match hc.tlsConfig with
    | none =>
      some { a with hostClient := some { hc with tlsConfig := some { insecureSkipVerify := true } } }
    | some cfg =>
      some { a with hostClient := some { hc with tlsConfig := some { cfg with insecureSkipVerify := true } } }

/-- `Agent.TLSConfig`: writes `a.HostClient.TLSConfig`; nil-pointer
panic on an unbound transport, embedded as `none`. -/
def Agent.tlsConfigSet (a : Agent) (config : TLSConf) : Option Agent :=
  match a.hostClient with
  | none => none
  | some hc => some { a with hostClient := some { hc with tlsConfig := some config } }

/-! ## Reset and release -/

/-- `Agent.reset`: scrub every mutable field before the agent returns
to its pool; auto-release form files go back to their pool and the
file list is truncated to empty. -/
def Agent.reset (a : Agent) : Agent :=
  { hostClient := none
    req := Request.zero
    customReq := none
    args := none
    timeout := 0
    errs := a.errs.take 0
    formFiles := a.formFiles.take 0
    debugWriter := none
    maxRedirectsCount := 0
    boundary := ""
    name := ""
    noDefaultUserAgentHeader := false
    reuse := false
    parsed := false }

/-- `Agent.release`: recycle the agent to its pool unless reuse was
requested, in which case only the error list is cleared.  The boolean
records whether `ReleaseAgent` (pool return) was performed. -/
def Agent.releaseStep (a : Agent) : Agent × Bool :=
  if ¬ a.reuse then (a.reset, true)
  else ({ a with errs := a.errs.take 0 }, false)

/-! ## path/filepath: Clean and Base (unix rules)

`SendFile` reads `ioutil.ReadFile(filepath.Clean(filename))` and names
the part `filepath.Base(filename)`.  `Clean` is Go's lexical path
cleaning over a lazily written buffer (`lazybuf`: an array plus a
write index that backtracking can move left). -/

/-- Go's `lazybuf`: content is `arr.take w`; appending past a
backtracked position overwrites in place. -/
structure LazyBuf where
  arr : List Char
  w : Nat
  deriving DecidableEq, Repr

/-- `lazybuf.append`. -/
def LazyBuf.append (b : LazyBuf) (c : Char) : LazyBuf :=
  if b.w < b.arr.length then { arr := b.arr.set b.w c, w := b.w + 1 }
  else { arr := b.arr ++ [c], w := b.w + 1 }

/-- `lazybuf.string`: the first `w` written characters. -/
def LazyBuf.contents (b : LazyBuf) : List Char := b.arr.take b.w

/-- The `for out.w > dotdot && out.index(out.w) != '/' { out.w-- }`
backtracking loop of `Clean`'s `..` case (entered after the initial
`out.w--`): pop buffer positions until a separator or the `dotdot`
floor. -/
def backtrackFrom (arr : List Char) (dotdot : Nat) : Nat → Nat
  | 0 => 0
  | w + 1 =>
    if dotdot < w + 1 ∧ arr.getD (w + 1) ' ' ≠ '/' then backtrackFrom arr dotdot w
    else w + 1

/-- The main scanning loop of `filepath.Clean`: `r` reads the input,
the buffer collects output, `dotdot` is the backtracking floor.  The
first argument is recursion fuel: every iteration advances `r` by at
least one, so `path.length` units of fuel (as supplied by `cleanPath`)
always outlast the loop and the out-of-fuel case is never reached. -/
def cleanLoop (path : List Char) (rooted : Bool) : Nat → LazyBuf → Nat → Nat → LazyBuf
  | 0, b, _, _ => b
  | fuel + 1, b, dotdot, r =>
    if r < path.length then
      let c := path.getD r ' '
      if c = '/' then
        -- empty path element
        cleanLoop path rooted fuel b dotdot (r + 1)
      else if c = '.' ∧ (r + 1 = path.length ∨ path.getD (r + 1) ' ' = '/') then
        -- . element
        cleanLoop path rooted fuel b dotdot (r + 1)
      else if c = '.' ∧ path.getD (r + 1) ' ' = '.' ∧
          (r + 2 = path.length ∨ path.getD (r + 2) ' ' = '/') then
        -- .. element: backtrack if possible, else emit ".." when not rooted
        if dotdot < b.w then
          cleanLoop path rooted fuel { b with w := backtrackFrom b.arr dotdot (b.w - 1) } dotdot (r + 2)
        else if ¬ rooted then
          let b1 := if 0 < b.w then b.append '/' else b
          let b2 := (b1.append '.').append '.'
          cleanLoop path rooted fuel b2 b2.w (r + 2)
        else
          cleanLoop path rooted fuel b dotdot (r + 2)
      else
        -- real path element: separator if needed, then copy the element
        let b1 := if (rooted ∧ b.w ≠ 1) ∨ (¬ rooted ∧ b.w ≠ 0) then b.append '/' else b
        let seg := (path.drop (r + 1)).takeWhile (fun ch => ch ≠ '/')
        cleanLoop path rooted fuel (seg.foldl LazyBuf.append (b1.append c)) dotdot (r + 1 + seg.length)
    else b

/-- `filepath.Clean` for unix paths (`FromSlash` is the identity and
the volume name is empty). -/
def cleanPath (s : String) : String :=
  let path := s.toList
  if path.isEmpty then "."
  else
    let rooted := path.headD ' ' = '/'
    let b0 : LazyBuf := if rooted then LazyBuf.append { arr := [], w := 0 } '/' else { arr := [], w := 0 }
    let r0 : Nat := if rooted then 1 else 0
    let dotdot0 : Nat := if rooted then 1 else 0
    let b := cleanLoop path rooted path.length b0 dotdot0 r0
    if b.w = 0 then "." else String.mk b.contents

/-- `filepath.Base` for unix paths: strip trailing separators, keep
everything after the last separator; all-separator input gives "/". -/
def basePath (s : String) : String :=
  let path := s.toList
  if path.isEmpty then "."
  else
    let p1 := (path.reverse.dropWhile (fun c => c = '/')).reverse
    let p2 := (p1.reverse.takeWhile (fun c => c ≠ '/')).reverse
    if p2.isEmpty then "/" else String.mk p2

/-! ## SendFile / SendFiles -/

/-- `Agent.SendFile`: read the (cleaned) file via the filesystem
oracle `fs`; on failure append the read error and discard; on success
acquire a scrubbed descriptor, pick the explicit field name when the
variadic argument supplies a non-empty one, else the positional
default `fileN` (N = current attachment count + 1), name it after the
file's base name, and append it auto-released. -/
def Agent.sendFile (a : Agent) (fs : String → Option (List Nat))
    (filename : String) (fieldname : List String) : Agent :=
  match fs (cleanPath filename) with
  | none => { a with errs := a.errs ++ [Err.readFile filename] }
  | some content =>
    let ff0 := FormFile.zero
    let fname :=
      if fieldname.length > 0 ∧ fieldname.headD "" ≠ "" then fieldname.headD ""
      else "file" ++ toString (a.formFiles.length + 1)
    let ff := { ff0 with
      fieldname := fname
      name := basePath filename
      content := ff0.content ++ content
      autoRelease := true }
    { a with formFiles := a.formFiles ++ [ff] }

/-- The `for i := 0; i < pairs; i += 2` loop of `SendFiles`.  The
first explicit argument is recursion fuel: `i` grows by two each
iteration, so `pairs` units of fuel (as supplied by `sendFiles`)
always outlast the loop and the out-of-fuel case is never reached. -/
def Agent.sendFilesLoop (fs : String → Option (List Nat)) (names : List String)
    (pairs : Nat) : Nat → Agent → Nat → Agent
  | 0, a, _ => a
  | fuel + 1, a, i =>
    if i < pairs then
      Agent.sendFilesLoop fs names pairs fuel
        (a.sendFile fs (names.getD i "") [names.getD (i + 1) ""]) (i + 2)
    else a

/-- `Agent.SendFiles`: interleaved (filename, fieldname) pairs; an odd
list is padded with an empty field name; the loop bound is the
original length. -/
def Agent.sendFiles (a : Agent) (fs : String → Option (List Nat))
    (filenamesAndFieldnames : List String) : Agent :=
  let pairs := filenamesAndFieldnames.length
  let names :=
    if pairs % 2 = 1 then filenamesAndFieldnames ++ [""] else filenamesAndFieldnames
  Agent.sendFilesLoop fs names pairs pairs a 0

/-! ## Multipart assembly -/

/-- One boundary character check of `multipart.Writer.SetBoundary`
(RFC 2046 §5.1.1): alphanumeric, listed punctuation, or a space that
is not the final character.  `Char.ofNat 39` is the apostrophe. -/
def validBoundaryChar (c : Char) (isLast : Bool) : Bool :=
  (decide ('A' ≤ c) && decide (c ≤ 'Z')) ||
  (decide ('a' ≤ c) && decide (c ≤ 'z')) ||
  (decide ('0' ≤ c) && decide (c ≤ '9')) ||
  (c = Char.ofNat 39 || c = '(' || c = ')' || c = '+' || c = '_' || c = ',' ||
    c = '-' || c = '.' || c = '/' || c = ':' || c = '=' || c = '?') ||
  (c = ' ' && !isLast)

/-- `multipart.Writer.SetBoundary` validity: length 1..70 and every
character admissible. -/
def validBoundary (b : String) : Bool :=
  let l := b.toList
  decide (1 ≤ l.length ∧ l.length ≤ 70) &&
  (List.range l.length).all
    (fun i => validBoundaryChar (l.getD i ' ') (decide (i = l.length - 1)))

/-- `Agent.MultipartForm`: a fresh writer over the request body sink,
whose generated boundary is the oracle `randomBoundary`.  An invalid
explicit boundary appends an error and aborts this call; otherwise the
boundary is declared in the Content-Type header, each argument pair
becomes a field part in insertion order, then each attached file a
file part, and the finished document is streamed into the body.
Field/file/close writes into the in-memory body sink cannot fail. -/
def Agent.multipartForm (a : Agent) (args : Option Args) (randomBoundary : String) : Agent :=
  if a.boundary ≠ "" ∧ validBoundary a.boundary = false then
    { a with errs := a.errs ++ [Err.invalidBoundary] }
  else
    let mwBoundary := if a.boundary ≠ "" then a.boundary else randomBoundary
    let req1 := a.req.setMultipartFormBoundary mwBoundary
    let fieldParts := (args.getD []).map (fun p => Part.field p.1 p.2)
    let fileParts := a.formFiles.map (fun ff => Part.file ff.fieldname ff.name ff.content)
    { a with req :=
      { req1 with body := req1.body ++ [BodyChunk.multipart mwBoundary (fieldParts ++ fileParts)] } }

/-! ## Execution core

`Bytes` dispatches to the bound `fasthttp.HostClient`, embedded as a
`Transport` oracle with the three send variants.  Each send fills the
response object; the result records the ordered trace of transport
invocations, the post-call agent state and whether the agent was
returned to its pool. -/

/-- An inbound response (`fasthttp.Response`), restricted to what
`Bytes` reads. -/
structure Response where
  statusCode : Int
  body : List Nat
  deriving DecidableEq, Repr

/-- The zero response (`AcquireResponse` on an empty pool /
`Response.Reset`).  fasthttp's zero status code is 0. -/
def Response.zero : Response :=
  { statusCode := 0, body := [] }

/-- Which transport send variant was invoked. -/
inductive SendKind where
  /-- `HostClient.DoTimeout` -/
  | doTimeout
  /-- `HostClient.DoRedirects` -/
  | doRedirects
  /-- `HostClient.Do` -/
  | plain
  deriving DecidableEq, Repr

/-- The transport capability of the bound `fasthttp.HostClient`: each
send variant fills the response object (modelled by returning the new
response value) and may fail. -/
structure Transport where
  sendTimeout : Request → Int → Option Err × Response
  sendRedirects : Request → Int → Option Err × Response
  send : Request → Option Err × Response

/-- Result of one execution call. -/
structure ExecResult where
  code : Int
  body : List Nat
  errs : List Err
  agentAfter : Agent
  releasedToPool : Bool
  trace : List SendKind
  deriving Repr

/-- The send sequence of `Agent.Bytes` (lines 536–554 of client.go):
the timeout-bounded send when `timeout > 0` (returning early only on
error), then the redirect-following send when `maxRedirectsCount > 0`
and the method is GET or HEAD (returning early only on error), then
the plain send.  Returns the accumulated errors, the final response
value and the invocation trace. -/
def Agent.sendPhase (a : Agent) (t : Transport) (req : Request) (resp : Response) :
    List Err × Response × List SendKind :=
  let afterRedirect : Response → List SendKind → List Err × Response × List SendKind :=
    fun _ trace =>
      match t.send req with
      | (some e, r) => ([e], r, trace ++ [SendKind.plain])
      | (none, r) => ([], r, trace ++ [SendKind.plain])
  let afterTimeout : Response → List SendKind → List Err × Response × List SendKind :=
    fun resp trace =>
      if 0 < a.maxRedirectsCount ∧ (req.method = "GET" ∨ req.method = "HEAD") then
        match t.sendRedirects req a.maxRedirectsCount with
        | (some e, r) => ([e], r, trace ++ [SendKind.doRedirects])
        | (none, r) => afterRedirect r (trace ++ [SendKind.doRedirects])
      else afterRedirect resp trace
  if 0 < a.timeout then
    match t.sendTimeout req a.timeout with
    | (some e, r) => ([e], r, [SendKind.doTimeout])
    | (none, r) => afterTimeout r [SendKind.doTimeout]
  else afterTimeout resp []

/-- `Agent.Bytes`: fail fast on a non-empty accumulated error list
(status 0, no body, no sends); otherwise send via `sendPhase` against
the effective request, read the status code only when error-free, copy
out the body, and release the agent (`defer a.release()`). -/
def Agent.bytes (a : Agent) (t : Transport) (customResp : Option Response) : ExecResult :=
  let releasePair := a.releaseStep
  let errs0 := [] ++ a.errs
  if errs0.length > 0 then
    { code := 0, body := [], errs := errs0
      agentAfter := releasePair.1, releasedToPool := releasePair.2, trace := [] }
  else
    let req := a.customReq.getD a.req
    let resp0 := customResp.getD Response.zero
    let phase := a.sendPhase t req resp0
    let errs1 := phase.1
    let resp1 := phase.2.1
    let code := if errs1.length = 0 then resp1.statusCode else 0
    { code := code, body := [] ++ resp1.body, errs := errs1
      agentAfter := releasePair.1, releasedToPool := releasePair.2, trace := phase.2.2 }

/-- `Agent.String`: `Bytes` with the body decoded as text (the byte
payload is unchanged; `getString` is a zero-copy view). -/
def Agent.stringCall (a : Agent) (t : Transport) (customResp : Option Response) : ExecResult :=
  a.bytes t customResp

/-- `Agent.Struct`: `Bytes`, then unconditionally unmarshal the body
into the caller's target via the JSON codec oracle, appending any
decode error. -/
def Agent.structCall (a : Agent) (t : Transport) (unmarshal : List Nat → Option Err)
    (customResp : Option Response) : ExecResult :=
  let r := a.bytes t customResp
  match unmarshal r.body with
  | some e => { r with errs := r.errs ++ [e] }
  | none => r

/-! ## Concrete fixtures for witnesses and counterexamples -/

/-- A transport double whose three send variants all succeed, with
distinct status codes so responses are distinguishable. -/
def okTransport : Transport :=
  { sendTimeout := fun _ _ => (none, { statusCode := 200, body := [7] })
    sendRedirects := fun _ _ => (none, { statusCode := 201, body := [8] })
    send := fun _ => (none, { statusCode := 202, body := [9] }) }

/-- The behaviour of `json.Unmarshal` on an empty payload: decoding
zero bytes always fails with "unexpected end of JSON input". -/
def emptyFailsUnmarshal : List Nat → Option Err := fun b =>
  if b.length = 0 then some (Err.unmarshal "unexpected end of JSON input") else none

/-- A filesystem double with two readable files. -/
def twoFilesFS : String → Option (List Nat) := fun s =>
  if s = "a.txt" then some [1, 2] else if s = "b.txt" then some [3] else none

/-- An agent aimed at an unsupported scheme. -/
def ftpAgent : Agent :=
  { freshAgent with req := { freshAgent.req with uri := some { URI.zero with scheme := "ftp", host := "h" } } }

/-- An agent with no URI set on its request. -/
def nilURIAgent : Agent := freshAgent

/-- An agent with one accumulated build error. -/
def errAgent : Agent := { freshAgent with errs := [Err.invalidURI] }

/-- A POST agent with a positive redirect budget. -/
def postAgent : Agent :=
  { freshAgent with maxRedirectsCount := 3, req := { freshAgent.req with method := "POST" } }

/-- An agent with the reuse flag set. -/
def reuseAgent : Agent := { freshAgent with reuse := true }

/-- A caller-supplied form file descriptor. -/
def sampleFile : FormFile :=
  { fieldname := "f", name := "n.bin", content := [1], autoRelease := false }

/-- An agent with an explicit boundary and one attached file. -/
def boundaryAgent : Agent :=
  { freshAgent with boundary := "XBOUND", formFiles := [sampleFile] }

/-! # Theorems -/

/-- Claim C8: after release every mutable field equals its zero/empty
form: `Agent.reset` restores exactly the state a fresh pool allocation
carries (HostClient nil, request reset, timeout 0, error and file
lists empty, flags false, boundary and name empty), and
`ReleaseFormFile` scrubs field name, file name, content and the
auto-release flag, so a subsequent acquire from the pool observes
nothing from the previous use. -/
theorem C8_release_zeroes (a : Agent) (ff : FormFile) :
    a.reset = freshAgent ∧ releaseFormFileReset ff = FormFile.zero :=
  ⟨rfl, rfl⟩

/-- Claim C1 (evaluation at the failing input): with an empty error
list and a positive timeout, a successful timeout-bounded send is
followed by further sends — the transport trace is
[DoTimeout, Do], and with a positive redirect count on a GET even
[DoTimeout, DoRedirects, Do] — contradicting "exactly one transport
send is performed". -/
theorem C1_timeout_send_not_exclusive :
    ({ freshAgent with timeout := 5 }.bytes okTransport none).trace =
      [SendKind.doTimeout, SendKind.plain] ∧
    ({ freshAgent with timeout := 5, maxRedirectsCount := 3 }.bytes okTransport none).trace =
      [SendKind.doTimeout, SendKind.doRedirects, SendKind.plain] ∧
    ({ freshAgent with timeout := 5 } : Agent).errs = [] := by
  decide

/-- Claim C9: on an Agent with the reuse flag set, every execution
call clears only the accumulated error list; every other field of the
agent is unchanged and the agent is not returned to its pool. -/
theorem C9_reuse_clears_only_errs (a : Agent) (t : Transport)
    (u : List Nat → Option Err) (cr : Option Response) (h : a.reuse = true) :
    (a.bytes t cr).agentAfter = { a with errs := [] } ∧
    (a.bytes t cr).releasedToPool = false ∧
    (a.stringCall t cr).agentAfter = { a with errs := [] } ∧
    (a.stringCall t cr).releasedToPool = false ∧
    (a.structCall t u cr).agentAfter = { a with errs := [] } ∧
    (a.structCall t u cr).releasedToPool = false := by
  have hrel : a.releaseStep = ({ a with errs := [] }, false) := by
    simp [Agent.releaseStep, h]
  have hb : (a.bytes t cr).agentAfter = { a with errs := [] } ∧
      (a.bytes t cr).releasedToPool = false := by
    unfold Agent.bytes
    simp only [List.nil_append]
    split <;> simp [hrel]
  have hs : (a.structCall t u cr).agentAfter = (a.bytes t cr).agentAfter ∧
      (a.structCall t u cr).releasedToPool = (a.bytes t cr).releasedToPool := by
    unfold Agent.structCall
    rcases hu : u (a.bytes t cr).body with _ | e <;> simp [hu]
  exact ⟨hb.1, hb.2, hb.1, hb.2, hs.1.trans hb.1, hs.2.trans hb.2⟩

/-- Witness for C9 at a concrete reusable agent. -/
theorem C9_reuse_clears_only_errs_witness :
    reuseAgent.reuse = true ∧
    (reuseAgent.bytes okTransport none).agentAfter = { reuseAgent with errs := [] } :=
  ⟨rfl, (C9_reuse_clears_only_errs reuseAgent okTransport
    emptyFailsUnmarshal none rfl).1⟩

/-- Claim C10: a failed resolution is memoized as completed — when a
first `Parse` call returns an error, the agent it leaves behind
answers every further `Parse` with no error and no state change, and
its transport binding is exactly what it was before (nil stays nil),
because the parsed flag is set before URI validation. -/
theorem C10_parse_failure_memoized (a : Agent) (e : Err) (h : a.parse.1 = some e) :
    a.parse.2.parse = (none, a.parse.2) ∧ a.parse.2.hostClient = a.hostClient := by
  by_cases hp : a.parsed = true
  · simp [Agent.parse, hp] at h
  · have hp' : a.parsed = false := by simpa using hp
    unfold Agent.parse at h ⊢
    simp only [hp', Bool.false_eq_true, if_false] at h ⊢
    cases hu : (({ a with parsed := true } : Agent).customReq.getD
        ({ a with parsed := true } : Agent).req).uri with
    | none => simp [hu, Agent.parse]
    | some u =>
      simp only [hu] at h ⊢
      by_cases hs : u.scheme = "https"
      · simp [hs] at h
      · by_cases hh : u.scheme = "http"
        · simp [hs, hh] at h
        · simp [hs, hh, Agent.parse]

/-- Witness for C10 at the unsupported-scheme agent. -/
theorem C10_parse_failure_memoized_witness :
    ftpAgent.parse.1 = some (Err.unsupportedProtocol "ftp") ∧
    ftpAgent.parse.2.parse = (none, ftpAgent.parse.2) ∧
    ftpAgent.parse.2.hostClient = ftpAgent.hostClient :=
  ⟨by decide, (C10_parse_failure_memoized ftpAgent (Err.unsupportedProtocol "ftp")
    (by decide)).1, (C10_parse_failure_memoized ftpAgent (Err.unsupportedProtocol "ftp")
    (by decide)).2⟩

/-- Claim C2 counterexample: with a non-empty pre-existing error list,
`Struct` does not return the list unchanged — it unconditionally
unmarshals the empty payload and appends the decode error, so the
returned list has gained an element. -/
theorem C2_struct_appends_decode_error :
    (errAgent.structCall okTransport emptyFailsUnmarshal none).errs ≠ errAgent.errs := by
  decide

/-- Claim C2 (amended): with a non-empty pre-existing error list,
every execution call performs zero transport invocations and returns
status 0 with an empty payload; `Bytes` and `String` return the error
list unchanged, while `Struct` returns it followed by whatever error
the codec produces on the empty payload. -/
theorem C2_fail_fast (a : Agent) (t : Transport) (u : List Nat → Option Err)
    (cr : Option Response) (h : a.errs ≠ []) :
    (a.bytes t cr).trace = [] ∧ (a.bytes t cr).errs = a.errs ∧
    (a.bytes t cr).code = 0 ∧ (a.bytes t cr).body = [] ∧
    (a.stringCall t cr).trace = [] ∧ (a.stringCall t cr).errs = a.errs ∧
    (a.stringCall t cr).code = 0 ∧ (a.stringCall t cr).body = [] ∧
    (a.structCall t u cr).trace = [] ∧ (a.structCall t u cr).code = 0 ∧
    (a.structCall t u cr).body = [] ∧
    (a.structCall t u cr).errs = a.errs ++ (u []).toList := by
  have hl : a.errs.length > 0 := List.length_pos.mpr h
  have hbytes : a.bytes t cr =
      { code := 0, body := [], errs := a.errs, agentAfter := a.releaseStep.1,
        releasedToPool := a.releaseStep.2, trace := [] } := by
    unfold Agent.bytes
    simp only [List.nil_append]
    rw [if_pos hl]
  have hstruct : (a.structCall t u cr).trace = [] ∧ (a.structCall t u cr).code = 0 ∧
      (a.structCall t u cr).body = [] ∧
      (a.structCall t u cr).errs = a.errs ++ (u []).toList := by
    unfold Agent.structCall
    rw [hbytes]
    rcases hu : u [] with _ | e <;> simp [hu]
  refine ⟨by rw [hbytes], by rw [hbytes], by rw [hbytes], by rw [hbytes],
    ?_, ?_, ?_, ?_, hstruct.1, hstruct.2.1, hstruct.2.2.1, hstruct.2.2.2⟩ <;>
    unfold Agent.stringCall <;> rw [hbytes]

/-- Witness for C2 (amended) at a concrete failed agent: one
pre-existing error, no sends, and the JSON codec's empty-input error
appended by Struct. -/
theorem C2_fail_fast_witness :
    errAgent.errs ≠ [] ∧ (errAgent.bytes okTransport none).trace = [] :=
  ⟨by decide, (C2_fail_fast errAgent okTransport emptyFailsUnmarshal none (by decide)).1⟩

/-- No redirect-following send ever appears in the send phase when the
effective method is neither GET nor HEAD. -/
theorem sendPhase_no_redirect (a : Agent) (t : Transport) (req : Request) (resp : Response)
    (h1 : req.method ≠ "GET") (h2 : req.method ≠ "HEAD") :
    SendKind.doRedirects ∉ (a.sendPhase t req resp).2.2 := by
  have hcond : ¬ (0 < a.maxRedirectsCount ∧ (req.method = "GET" ∨ req.method = "HEAD")) := by
    rintro ⟨-, hm | hm⟩
    · exact h1 hm
    · exact h2 hm
  unfold Agent.sendPhase
  simp only [hcond, if_false]
  by_cases ht : (0 : Int) < a.timeout
  · rw [if_pos ht]
    rcases t.sendTimeout req a.timeout with ⟨_ | e, r⟩ <;> simp [hcond]
    rcases t.send req with ⟨_ | e2, r2⟩ <;> simp
  · rw [if_neg ht]
    rcases t.send req with ⟨_ | e2, r2⟩ <;> simp

/-- Claim C5: for an Agent whose effective request method is neither
GET nor HEAD, execution with a positive redirect budget never invokes
the redirect-following send, whatever the transport answers. -/
theorem C5_no_redirect_for_non_get_head (a : Agent) (t : Transport) (cr : Option Response)
    (_hmr : 0 < a.maxRedirectsCount)
    (h1 : (a.customReq.getD a.req).method ≠ "GET")
    (h2 : (a.customReq.getD a.req).method ≠ "HEAD") :
    SendKind.doRedirects ∉ (a.bytes t cr).trace := by
  unfold Agent.bytes
  simp only [List.nil_append]
  split
  · simp
  · exact sendPhase_no_redirect a t (a.customReq.getD a.req) (cr.getD Response.zero) h1 h2

/-- Witness for C5: a POST agent with a redirect budget against the
all-successful transport performs no redirect-following send. -/
theorem C5_no_redirect_for_non_get_head_witness :
    0 < postAgent.maxRedirectsCount ∧
    SendKind.doRedirects ∉ (postAgent.bytes okTransport none).trace :=
  ⟨by decide, C5_no_redirect_for_non_get_head postAgent okTransport none
    (by decide) (by decide) (by decide)⟩

/-- Claim C4 counterexample: on a scheme that is neither http nor
https, the first `Parse` does not return `ErrInvalidURI` but the
distinct unsupported-protocol error. -/
theorem C4_unsupported_scheme_distinct_error :
    ftpAgent.parse.1 = some (Err.unsupportedProtocol "ftp") ∧
    ftpAgent.parse.1 ≠ some Err.invalidURI := by
  decide

/-- Claim C4 (amended): on an unparsed Agent with no bound transport,
the first `Parse` returns `ErrInvalidURI` when the effective request's
URI is nil, and the unsupported-protocol error naming the scheme when
the scheme is neither http nor https; in both cases the HostClient
stays nil. -/
theorem C4_parse_invalid_uri (a : Agent) (hp : a.parsed = false) (hh : a.hostClient = none) :
    ((a.customReq.getD a.req).uri = none →
      a.parse.1 = some Err.invalidURI ∧ a.parse.2.hostClient = none) ∧
    (∀ u, (a.customReq.getD a.req).uri = some u → u.scheme ≠ "http" → u.scheme ≠ "https" →
      a.parse.1 = some (Err.unsupportedProtocol u.scheme) ∧ a.parse.2.hostClient = none) := by
  constructor
  · intro hu
    unfold Agent.parse
    simp [hp, hu, hh]
  · intro u hu hhttp hhttps
    unfold Agent.parse
    simp [hp, hu, hh, hhttp, hhttps]

/-- Witness for C4 (amended) at the nil-URI agent and the ftp agent. -/
theorem C4_parse_invalid_uri_witness :
    nilURIAgent.parse.1 = some Err.invalidURI ∧ nilURIAgent.parse.2.hostClient = none ∧
    ftpAgent.parse.2.hostClient = none := by
  have h1 := (C4_parse_invalid_uri nilURIAgent rfl rfl).1 rfl
  have h2 := (C4_parse_invalid_uri ftpAgent rfl rfl).2
    { URI.zero with scheme := "ftp", host := "h" } rfl (by decide) (by decide)
  exact ⟨h1.1, h1.2, h2.2⟩

/-- Claim C3 counterexample: on an Agent on which Parse has not
succeeded (nil HostClient), the TLS setter `InsecureSkipVerify`
dereferences the nil transport binding and panics rather than
returning the Agent. -/
theorem C3_insecure_skip_verify_panics :
    freshAgent.insecureSkipVerify = none ∧ freshAgent.parsed = false := by
  decide

/-- Claim C3 (amended): every builder setter except the two TLS
setters is total on every Agent state, never raises, and leaves the
error list untouched except to append a detected failure (marshal
error, unreadable file); the TLS setters (`InsecureSkipVerify`,
`TLSConfig`) dereference the bound HostClient and are total exactly on
Agents whose transport is bound (Parse succeeded). -/
theorem C3_setters_total_except_tls (a : Agent) :
    (∀ k v, (a.set k v).errs = a.errs) ∧
    (∀ k v, (a.add k v).errs = a.errs) ∧
    (a.connectionClose.errs = a.errs) ∧
    (∀ s, (a.userAgent s).errs = a.errs) ∧
    (∀ k v, (a.cookie k v).errs = a.errs) ∧
    (∀ kv, (a.cookies kv).errs = a.errs) ∧
    (∀ s, (a.referer s).errs = a.errs) ∧
    (∀ s, (a.contentType s).errs = a.errs) ∧
    (∀ s, (a.host s).errs = a.errs) ∧
    (∀ s, (a.queryString s).errs = a.errs) ∧
    (∀ us pw, (a.basicAuth us pw).errs = a.errs) ∧
    (∀ s, (a.bodyString s).errs = a.errs) ∧
    (∀ r, (a.requestSet r).errs = a.errs) ∧
    (∀ body, (a.jsonBody (Except.ok body)).errs = a.errs) ∧
    (∀ e, (a.jsonBody (Except.error e)).errs = a.errs ++ [e]) ∧
    (∀ body, (a.xmlBody (Except.ok body)).errs = a.errs) ∧
    (∀ e, (a.xmlBody (Except.error e)).errs = a.errs ++ [e]) ∧
    (∀ args enc, (a.form args enc).errs = a.errs) ∧
    (∀ s, (a.boundarySet s).errs = a.errs) ∧
    (∀ w, (a.debug w).errs = a.errs) ∧
    (∀ d, (a.timeoutSet d).errs = a.errs) ∧
    (a.reuseSet.errs = a.errs) ∧
    (∀ c, (a.maxRedirectsCountSet c).errs = a.errs) ∧
    (∀ fs fn f, (a.sendFile fs fn f).errs = a.errs ∨
      (a.sendFile fs fn f).errs = a.errs ++ [Err.readFile fn]) ∧
    (a.insecureSkipVerify.isSome ↔ a.hostClient.isSome) ∧
    (∀ cfg, (a.tlsConfigSet cfg).isSome ↔ a.hostClient.isSome) := by
  refine ⟨fun k v => rfl, fun k v => rfl, rfl, fun s => rfl, fun k v => rfl, fun kv => rfl,
    fun s => rfl, fun s => rfl, fun s => rfl, fun s => rfl, fun us pw => rfl, fun s => rfl,
    fun r => rfl, fun body => rfl, fun e => rfl, fun body => rfl, fun e => rfl,
    ?_, fun s => rfl, fun w => rfl, fun d => rfl, rfl, fun c => rfl, ?_, ?_, ?_⟩
  · intro args enc
    cases args <;> rfl
  · intro fs fn f
    unfold Agent.sendFile
    rcases hf : fs (cleanPath fn) with _ | c
    · right; rfl
    · left; rfl
  · rcases hh : a.hostClient with _ | hc
    · simp [Agent.insecureSkipVerify, hh]
    · rcases htc : hc.tlsConfig with _ | cfg <;> simp [Agent.insecureSkipVerify, hh, htc]
  · intro cfg
    rcases hh : a.hostClient with _ | hc <;> simp [Agent.tlsConfigSet, hh]

/-- Witness for C3 (amended) at a concrete agent and header. -/
theorem C3_setters_total_except_tls_witness :
    (freshAgent.set "X-K" "v").errs = freshAgent.errs :=
  (C3_setters_total_except_tls freshAgent).1 "X-K" "v"

/-- In a header list produced by `Set`, the surviving old entries
carry a different key, so filtering for the set key finds nothing
among them. -/
theorem filter_eq_key_of_filter_ne (l : List (String × String)) (k : String) :
    (l.filter (fun p => p.1 ≠ k)).filter (fun p => p.1 = k) = [] := by
  induction l with
  | nil => rfl
  | cons x xs ih =>
    by_cases hx : x.1 = k <;> simp [List.filter_cons, hx, ih]

/-- Setting a header leaves exactly one value under that key. -/
theorem headerValues_setHeader (req : Request) (k v : String) :
    (req.setHeader k v).headerValues k = [v] := by
  unfold Request.setHeader Request.headerValues
  simp [List.filter_append, filter_eq_key_of_filter_ne]

/-- Replacing the body of a request does not change its headers. -/
theorem headerValues_body_irrelevant (req : Request) (b : List BodyChunk) (k : String) :
    ({ req with body := b } : Request).headerValues k = req.headerValues k := rfl

/-- Claim C6: with a valid explicit boundary, an argument set of two
key/value pairs and one attached file, `MultipartForm` writes into the
(empty) request body one multipart document of exactly three parts —
one field per pair in insertion order, then the file part carrying the
descriptor's field name and file name — delimited by the explicit
boundary, which is exactly the boundary declared in the Content-Type
header; no error is appended. -/
theorem C6_multipart_two_fields_one_file (a : Agent) (k1 v1 k2 v2 : String)
    (ff : FormFile) (rb : String)
    (hne : a.boundary ≠ "")
    (hb : validBoundary a.boundary = true)
    (hfiles : a.formFiles = [ff])
    (hbody : a.req.body = []) :
    (a.multipartForm (some [(k1, v1), (k2, v2)]) rb).req.body =
      [BodyChunk.multipart a.boundary
        [Part.field k1 v1, Part.field k2 v2, Part.file ff.fieldname ff.name ff.content]] ∧
    (a.multipartForm (some [(k1, v1), (k2, v2)]) rb).req.headerValues "Content-Type" =
      ["multipart/form-data; boundary=" ++ a.boundary] ∧
    (a.multipartForm (some [(k1, v1), (k2, v2)]) rb).errs = a.errs := by
  have hcond : ¬ (a.boundary ≠ "" ∧ validBoundary a.boundary = false) := by
    rintro ⟨-, hf⟩
    rw [hb] at hf
    cases hf
  unfold Agent.multipartForm
  rw [if_neg hcond]
  simp only [if_pos hne]
  refine ⟨?_, ?_, ?_⟩
  · simp [Request.setMultipartFormBoundary, Request.setHeader, hbody, hfiles]
  · rw [headerValues_body_irrelevant]
    simp [Request.setMultipartFormBoundary, headerValues_setHeader]
  · trivial

/-- Witness for C6 at the explicit boundary "XBOUND". -/
theorem C6_multipart_two_fields_one_file_witness :
    boundaryAgent.boundary ≠ "" ∧
    (boundaryAgent.multipartForm (some [("k1", "v1"), ("k2", "v2")]) "RAND").req.body =
      [BodyChunk.multipart "XBOUND"
        [Part.field "k1" "v1", Part.field "k2" "v2", Part.file "f" "n.bin" [1]]] :=
  ⟨by decide, (C6_multipart_two_fields_one_file boundaryAgent "k1" "v1" "k2" "v2"
    sampleFile "RAND" (by decide) (by decide) rfl rfl).1⟩

/-- Effect of `SendFile` on a readable file: one descriptor is
appended, named by the explicit field name when a non-empty one is
supplied and by the positional default otherwise. -/
theorem sendFile_ok (a : Agent) (fs : String → Option (List Nat)) (fn : String)
    (f : List String) (c : List Nat) (hf : fs (cleanPath fn) = some c) :
    a.sendFile fs fn f =
      { a with formFiles := a.formFiles ++
        [{ fieldname :=
            if f.length > 0 ∧ f.headD "" ≠ "" then f.headD ""
            else "file" ++ toString (a.formFiles.length + 1)
           name := basePath fn
           content := c
           autoRelease := true }] } := by
  unfold Agent.sendFile
  rw [hf]
  exact rfl

/-- Claim C7: on an Agent with no attached files, `SendFiles` with the
odd argument list ["a.txt", "f1", "b.txt"] (both files readable)
attaches exactly two descriptors: the first under the explicit field
name "f1", the second under the padded-in empty field name that the
loader defaults to "file2"; no error is appended. -/
theorem C7_sendfiles_odd_list (a : Agent) (fs : String → Option (List Nat)) (c1 c2 : List Nat)
    (hnf : a.formFiles = [])
    (h1 : fs "a.txt" = some c1) (h2 : fs "b.txt" = some c2) :
    (a.sendFiles fs ["a.txt", "f1", "b.txt"]).formFiles =
      [{ fieldname := "f1", name := "a.txt", content := c1, autoRelease := true },
       { fieldname := "file2", name := "b.txt", content := c2, autoRelease := true }] ∧
    (a.sendFiles fs ["a.txt", "f1", "b.txt"]).errs = a.errs := by
  have hc1 : fs (cleanPath "a.txt") = some c1 := by
    rw [show cleanPath "a.txt" = "a.txt" from by decide]
    exact h1
  have hc2 : fs (cleanPath "b.txt") = some c2 := by
    rw [show cleanPath "b.txt" = "b.txt" from by decide]
    exact h2
  have hloop : a.sendFiles fs ["a.txt", "f1", "b.txt"] =
      (a.sendFile fs "a.txt" ["f1"]).sendFile fs "b.txt" [""] := rfl
  rw [hloop, sendFile_ok a fs "a.txt" ["f1"] c1 hc1, sendFile_ok _ fs "b.txt" [""] c2 hc2]
  simp [hnf, show basePath "a.txt" = "a.txt" from by decide,
    show basePath "b.txt" = "b.txt" from by decide,
    show "file" ++ toString 2 = "file2" from by decide]

/-- Witness for C7 at the two-file filesystem double. -/
theorem C7_sendfiles_odd_list_witness :
    freshAgent.formFiles = [] ∧
    (freshAgent.sendFiles twoFilesFS ["a.txt", "f1", "b.txt"]).formFiles =
      [{ fieldname := "f1", name := "a.txt", content := [1, 2], autoRelease := true },
       { fieldname := "file2", name := "b.txt", content := [3], autoRelease := true }] :=
  ⟨rfl, (C7_sendfiles_odd_list freshAgent twoFilesFS [1, 2] [3] rfl
    (by decide) (by decide)).1⟩

end FiberClient
